import Mathlib

/-!
# ngrokcurl: identifier generation, upload and download handlers

A shallow embedding of `main.go`.  A Go `string` is a sequence of bytes, so it
is a `List Byte` here; `len`, slicing, `+` and `==` are the list operations.
The operating system and the libraries the handlers call (`crypto/rand`,
`time`, `os`, `path/filepath`, `net/http`) are passed in or modelled
explicitly, so every handler is a pure function of the request, the directory
contents and the outcome of the fallible calls.
-/

set_option autoImplicit false

namespace NgrokCurl

/-! ## Strings -/

/-- One byte of a Go string or byte slice. -/
abbrev Byte := Fin 256

/-- Go `string`: an immutable sequence of bytes. -/
abbrev GoString := List Byte

/-- Bytes of an ASCII string literal of the source. -/
def str (s : String) : GoString :=
  s.toList.map (fun c => Fin.ofNat c.toNat)

/-- The separator `"_"` of line 132, as a byte. -/
def underscore : Byte := 95

/-- The path separator `'/'`. -/
def slash : Byte := 47

/-! ## Constants (lines 15-19) -/

def uploadDir : GoString := str "./uploads"

def maxFileSize : Nat := 100 * 1024 * 1024

def port : GoString := str "8080"

/-! ## `encoding/hex` and `fmt` -/

/-- Table `hextable` of `encoding/hex`. -/
def hextable : GoString := str "0123456789abcdef"

/-- Lookup `hextable[i]`, for `i < 16`. -/
def hexDigit (i : Nat) : Byte := hextable.getD i 0

/-- Go `hex.EncodeToString`: two digits per byte, `hextable[v>>4]` then
`hextable[v&0x0f]`. -/
def hexEncodeToString : List Byte → GoString
  | [] => []
  | v :: rest => hexDigit (v.val / 16) :: hexDigit (v.val % 16) :: hexEncodeToString rest

/-- Decimal digit `'0' + d`, for `d < 10`. -/
def decDigit (d : Nat) : Byte := Fin.ofNat (48 + d)

/-- Digits of `n`, most significant first, pushed in front of `acc`; `fuel`
bounds the number of divisions. -/
def decDigitsAux : Nat → Nat → GoString → GoString
  | 0, _, acc => acc
  | fuel + 1, n, acc =>
    if n < 10 then decDigit n :: acc
    else decDigitsAux fuel (n / 10) (decDigit (n % 10) :: acc)

/-- Decimal digits of a natural number; `n + 1` divisions always suffice. -/
def decDigits (n : Nat) : GoString := decDigitsAux (n + 1) n []

/-- Go `fmt.Sprintf("%d", v)` for a signed integer. -/
def formatInt (v : Int) : GoString :=
  if v < 0 then (45 : Byte) :: decDigits v.natAbs else decDigits v.natAbs

/-! ## Identifier generator (lines 241-248) -/

/-- Buffer `make([]byte, 16)` after a successful `rand.Read`. -/
abbrev RandBuf := { b : List Byte // b.length = 16 }

/-- Go `generateFileID`.  `rnd` is the outcome of `rand.Read(bytes)`: `some b`
when it filled the 16 bytes, `none` when it returned an error; `now` is
`time.Now().UnixNano()`, read only on the error path. -/
def generateFileID (rnd : Option RandBuf) (now : Int) : GoString :=
  match rnd with
  | none => formatInt now
  | some b => (hexEncodeToString b.val).take 12

/-- Lowercase hex alphabet `0-9a-f`. -/
def isLowerHex (c : Byte) : Prop :=
  (48 ≤ c.val ∧ c.val ≤ 57) ∨ (97 ≤ c.val ∧ c.val ≤ 102)

/-- Decimal digit `0-9`. -/
def isDecDigit (c : Byte) : Prop := 48 ≤ c.val ∧ c.val ≤ 57

/-- Line 132: `fileName := fileID + "_" + header.Filename`. -/
def compositeName (fileID filename : GoString) : GoString :=
  fileID ++ str "_" ++ filename

/-! ## `path/filepath` on Unix -/

/-- Path element `"."`. -/
def dot : GoString := str "."

/-- Path element `".."`. -/
def dotdot : GoString := str ".."

/-- Elements of a path between its separators, as `strings.Split(path, "/")`
lists them (empty elements included). -/
def splitSlash : GoString → List GoString
  | [] => [[]]
  | c :: cs =>
    if c = slash then [] :: splitSlash cs
    else
      match splitSlash cs with
      | [] => [[c]]
      | x :: xs => (c :: x) :: xs

/-- Elements written back with one separator between them. -/
def joinSlash : List GoString → GoString
  | [] => []
  | [x] => x
  | x :: y :: rest => x ++ slash :: joinSlash (y :: rest)

/-- The element loop of `filepath.Clean`.  `out` holds the elements kept so
far, the last one first.  An empty element or `.` is dropped; `..` removes the
last kept element when there is one that is not itself `..`, is dropped at the
root, and is kept otherwise; any other element is kept. -/
def cleanLoop (rooted : Bool) : List GoString → List GoString → List GoString
  | out, [] => out.reverse
  | out, c :: cs =>
    if c = [] ∨ c = dot then cleanLoop rooted out cs
    else if c = dotdot then
      match out with
      | [] => if rooted then cleanLoop rooted [] cs else cleanLoop rooted [dotdot] cs
      | top :: below =>
        if top = dotdot then cleanLoop rooted (dotdot :: top :: below) cs
        else cleanLoop rooted below cs
    else cleanLoop rooted (c :: out) cs

/-- Go `filepath.Clean`: the shortest path equivalent to `path` by purely lexical
processing. -/
def filepathClean (path : GoString) : GoString :=
  if path = [] then dot
  else
    let rooted := path.head? == some slash
    let elems := cleanLoop rooted [] (splitSlash path)
    if rooted then slash :: joinSlash elems
    else if elems = [] then dot
    else joinSlash elems

/-- Go `filepath.Join(a, b)`: the elements from the first non-empty one on, joined
with the separator and cleaned; the empty string when both are empty. -/
def filepathJoin (a b : GoString) : GoString :=
  if a ≠ [] then filepathClean (a ++ str "/" ++ b)
  else if b ≠ [] then filepathClean b
  else []

/-- Go `filepath.Base`: the last element of `path`, trailing separators removed
first; `.` for the empty path and `/` for a path of separators only. -/
def filepathBase (path : GoString) : GoString :=
  if path = [] then dot
  else
    let stripped := (path.reverse.dropWhile (fun c => c == slash)).reverse
    let last := (stripped.reverse.takeWhile (fun c => c != slash)).reverse
    if last = [] then str "/" else last

/-! ## The upload directory -/

/-- One entry of the upload directory: its name, whether it is a directory,
and the bytes of a regular file. -/
structure DirEntry where
  Name : GoString
  IsDir : Bool
  data : List Byte
deriving DecidableEq, Repr

/-- Contents of `uploadDir`, in the order `os.ReadDir` returns them (sorted by
file name). -/
abbrev Dir := List DirEntry

/-- Name a file system accepts for a directory entry: not empty, no separator,
neither `.` nor `..`. -/
def validName (n : GoString) : Prop :=
  n ≠ [] ∧ slash ∉ n ∧ n ≠ dot ∧ n ≠ dotdot

instance (n : GoString) : Decidable (validName n) := by
  unfold validName
  infer_instance

/-- The entry of the upload directory that a cleaned path denotes: `n` for
`uploads/n`.  Only the direct children of the upload directory are tracked, any
other path is outside the model. -/
def childName (path : GoString) : Option GoString :=
  if path.take 8 = str "uploads/" ∧ validName (path.drop 8) then some (path.drop 8)
  else none

/-- Go string comparison `a < b`: bytewise lexicographic. -/
def nameLt : GoString → GoString → Bool
  | [], [] => false
  | [], _ :: _ => true
  | _ :: _, [] => false
  | a :: as, b :: bs => if a < b then true else if b < a then false else nameLt as bs

/-- Place of a new entry in the sorted listing. -/
def insertEntry (e : DirEntry) : Dir → Dir
  | [] => [e]
  | x :: xs => if nameLt e.Name x.Name then e :: x :: xs else x :: insertEntry e xs

/-- Go `os.Create(path)`: creates the regular file, or truncates the one that
exists.  Fails when the system reports a fault, when the path is not a direct
child of the upload directory, or when it names a directory. -/
def osCreate (fault : Bool) (dir : Dir) (path : GoString) : Option (GoString × Dir) :=
  if fault then none
  else
    match childName path with
    | none => none
    | some n =>
      if dir.any (fun e => e.Name == n && e.IsDir) then none
      else some (n, insertEntry ⟨n, false, []⟩ (dir.filter (fun e => e.Name != n)))

/-- Bytes written to the open regular file called `n`. -/
def writeFile (dir : Dir) (n : GoString) (bytes : List Byte) : Dir :=
  dir.map (fun e => if e.Name = n ∧ e.IsDir = false then { e with data := e.data ++ bytes } else e)

/-- Go `io.Copy(dst, src)` into the file called `n`.  `fault = some k` is a
failure after `k` bytes; the bytes written so far stay in the file.  Returns
the directory, the count of bytes written, and whether an error occurred. -/
def ioCopy (fault : Option Nat) (dir : Dir) (n : GoString) (src : List Byte) :
    Dir × Nat × Bool :=
  match fault with
  | none => (writeFile dir n src, src.length, false)
  | some k => (writeFile dir n (src.take k), (src.take k).length, true)

/-- Go `os.Open(path)`: the regular file the path denotes.  Names in a directory
are unique, so it is the first regular file of that name. -/
def osOpen (fault : Bool) (dir : Dir) (path : GoString) : Option DirEntry :=
  if fault then none
  else
    match childName path with
    | none => none
    | some n => dir.find? (fun e => e.Name == n && !e.IsDir)

/-! ## `net/http` -/

/-- Part of a multipart form that carries a file: `FileHeader.Filename` and the
bytes read from the opened part. -/
structure FileHeader where
  Filename : GoString
  content : List Byte
deriving DecidableEq, Repr

/-- What the handlers read of a `*http.Request`.  `bodyLength` is the number of
body bytes the form reader consumes; `files` are the file parts of the body as
(field name, header) in order, `none` when the body is not a well-formed
multipart form. -/
structure Request where
  Method : GoString
  Host : GoString
  URLPath : GoString
  bodyLength : Nat
  files : Option (List (GoString × FileHeader))
deriving DecidableEq, Repr

/-- What a handler writes to the `http.ResponseWriter`. -/
structure Response where
  status : Nat
  header : List (GoString × GoString)
  body : GoString
deriving DecidableEq, Repr

/-- Go `http.Error(w, msg, code)`. -/
def httpError (msg : GoString) (code : Nat) : Response :=
  { status := code
    header := [(str "Content-Type", str "text/plain; charset=utf-8"),
               (str "X-Content-Type-Options", str "nosniff")]
    body := msg ++ str "\n" }

/-- Go `r.ParseMultipartForm` behind `http.MaxBytesReader(w, r.Body, maxFileSize)`:
fails when more than `maxFileSize` body bytes have to be read or when the body
is not a multipart form. -/
def parseMultipartForm (r : Request) : Option (List (GoString × FileHeader)) :=
  if r.bodyLength > maxFileSize then none else r.files

/-- Go `r.FormFile(key)`: the first file of the form under `key`. -/
def formFile (files : List (GoString × FileHeader)) (key : GoString) : Option FileHeader :=
  (files.find? (fun p => p.1 == key)).map (fun p => p.2)

/-- Go `getHost` (lines 250-256). -/
def getHost (r : Request) : GoString :=
  if r.Host = [] then str "localhost:" ++ port else r.Host

/-- Double quote. -/
def quote : GoString := [34]

/-- Response body of a successful upload (lines 159-160). -/
def uploadJSON (fileID filename : GoString) (size : Nat) (downloadURL : GoString) : GoString :=
  str "\x7b" ++ quote ++ str "id" ++ quote ++ str ":" ++ quote ++ fileID ++ quote
    ++ str "," ++ quote ++ str "filename" ++ quote ++ str ":" ++ quote ++ filename ++ quote
    ++ str "," ++ quote ++ str "size" ++ quote ++ str ":" ++ formatInt size
    ++ str "," ++ quote ++ str "url" ++ quote ++ str ":" ++ quote ++ downloadURL ++ quote
    ++ str "\x7d"

/-! ## Upload handler (lines 108-162) -/

/-- Errors the system calls of an upload return: `createErr` when `os.Create`
fails (permissions, a name the file system rejects, a full disk), `copyErr`
when `io.Copy` fails after that many bytes. -/
structure UploadFaults where
  createErr : Bool
  copyErr : Option Nat
deriving DecidableEq, Repr

/-- Go `handleUpload`.  Returns the response and the upload directory after the
call. -/
def handleUpload (rnd : Option RandBuf) (now : Int) (faults : UploadFaults)
    (dir : Dir) (r : Request) : Response × Dir :=
  if r.Method ≠ str "POST" then
    (httpError (str "Method not allowed") 405, dir)
  else
    match parseMultipartForm r with
    | none => (httpError (str "File too large or invalid form") 400, dir)
    | some files =>
      match formFile files (str "file") with
      | none => (httpError (str "Failed to read file: " ++ str "http: no such file") 400, dir)
      | some header =>
        let fileID := generateFileID rnd now
        let fileName := compositeName fileID header.Filename
        let filePath := filepathJoin uploadDir fileName
        match osCreate faults.createErr dir filePath with
        | none => (httpError (str "Failed to save file") 500, dir)
        | some (dst, dir1) =>
          match ioCopy faults.copyErr dir1 dst header.content with
          | (dir2, _, true) => (httpError (str "Failed to save file") 500, dir2)
          | (dir2, size, false) =>
            let downloadURL := str "http://" ++ getHost r ++ str "/files/" ++ fileID
            ({ status := 200
               header := [(str "Content-Type", str "application/json")]
               body := uploadJSON fileID header.Filename size downloadURL }, dir2)

/-! ## Download handler (lines 164-234) -/

/-- Errors the system calls of a download return: from `os.ReadDir`, `os.Open`
and `file.Stat`. -/
structure DownloadFaults where
  readDirErr : Bool
  openErr : Bool
  statErr : Bool
deriving DecidableEq, Repr

/-- Test of line 191: `len(name) >= len(fileID) && name[:len(fileID)] == fileID`. -/
def startsWith (name fileID : GoString) : Bool :=
  decide (name.length ≥ fileID.length) && (name.take fileID.length == fileID)

/-- Loop of lines 187-197 over the entries: the path of the first entry that
is not a directory and whose name starts with `fileID`; `none` when `found`
stays false. -/
def findFile (fileID : GoString) : List DirEntry → Option GoString
  | [] => none
  | entry :: rest =>
    if !entry.IsDir then
      if startsWith entry.Name fileID then some (filepathJoin uploadDir entry.Name)
      else findFile fileID rest
    else findFile fileID rest

/-- Lines 220-223: the base name of the path, without its first
`len(fileID) + 1` bytes when it is longer than that. -/
def recoverFilename (fileID baseName : GoString) : GoString :=
  let idx := fileID.length + 1
  if baseName.length > idx then baseName.drop idx else baseName

/-- Lines 226-231: the three headers, with `fileInfo.Size()` the length of the
file, then the bytes of the file copied to the response. -/
def downloadResponse (originalFilename : GoString) (data : List Byte) : Response :=
  { status := 200
    header := [(str "Content-Disposition",
                  str "attachment; filename=" ++ quote ++ originalFilename ++ quote),
               (str "Content-Type", str "application/octet-stream"),
               (str "Content-Length", formatInt data.length)]
    body := data }

/-- What a call of `handleDownload` did: the response and the path it passed
to `os.Open`, if it opened a file. -/
structure DownloadResult where
  response : Response
  opened : Option GoString
deriving DecidableEq, Repr

/-- Go `handleDownload`.  `none` is the run-time panic of the slice expression of
line 171 on a path shorter than `"/files/"`. -/
def handleDownload (faults : DownloadFaults) (dir : Dir) (r : Request) :
    Option DownloadResult :=
  if r.Method ≠ str "GET" then
    some ⟨httpError (str "Method not allowed") 405, none⟩
  else if r.URLPath.length < (str "/files/").length then none
  else
    let fileID := r.URLPath.drop (str "/files/").length
    if fileID = [] then some ⟨httpError (str "File ID required") 400, none⟩
    else if faults.readDirErr then
      some ⟨httpError (str "Failed to read uploads directory") 500, none⟩
    else
      match findFile fileID dir with
      | none => some ⟨httpError (str "File not found") 404, none⟩
      | some filePath =>
        match osOpen faults.openErr dir filePath with
        | none => some ⟨httpError (str "Failed to open file") 500, some filePath⟩
        | some file =>
          if faults.statErr then
            some ⟨httpError (str "Failed to get file info") 500, some filePath⟩
          else
            let originalFilename := recoverFilename fileID (filepathBase filePath)
            some ⟨downloadResponse originalFilename file.data, some filePath⟩

/-! ## Sample inputs -/

/-- Random buffer of sixteen zero bytes; its identifier is `000000000000`. -/
def zeros16 : RandBuf := ⟨List.replicate 16 0, by decide⟩

/-- POST of a multipart form with one part `file`, in a body of `bodyLength`
bytes. -/
def uploadRequest (bodyLength : Nat) (filename : GoString) (content : List Byte) : Request :=
  { Method := str "POST", Host := str "example.org", URLPath := str "/upload",
    bodyLength := bodyLength, files := some [(str "file", ⟨filename, content⟩)] }

/-- GET of `/files/` followed by `fileID`. -/
def downloadRequest (fileID : GoString) : Request :=
  { Method := str "GET", Host := str "example.org", URLPath := str "/files/" ++ fileID,
    bodyLength := 0, files := none }

/-- No fault during an upload. -/
def noUploadFaults : UploadFaults := ⟨false, none⟩

/-- No fault during a download. -/
def noDownloadFaults : DownloadFaults := ⟨false, false, false⟩

/-! ## Facts about the encoders -/

theorem str_underscore : str "_" = [underscore] := by decide

theorem str_slash : str "/" = [slash] := by decide

theorem hexDigit_isLowerHex : ∀ i : Fin 16, isLowerHex (hexDigit i.val) := by
  unfold isLowerHex
  decide

theorem hexDigit_lower (i : Nat) (h : i < 16) : isLowerHex (hexDigit i) :=
  hexDigit_isLowerHex ⟨i, h⟩

theorem hexEncodeToString_length (l : List Byte) :
    (hexEncodeToString l).length = 2 * l.length := by
  induction l with
  | nil => rfl
  | cons v rest ih => simp [hexEncodeToString, ih]; omega

theorem hexEncodeToString_lower (l : List Byte) :
    ∀ c ∈ hexEncodeToString l, isLowerHex c := by
  induction l with
  | nil => intro c hc; simp [hexEncodeToString] at hc
  | cons v rest ih =>
    intro c hc
    simp only [hexEncodeToString, List.mem_cons] at hc
    rcases hc with h | h | h
    · rw [h]; exact hexDigit_lower _ (by have := v.isLt; omega)
    · rw [h]; exact hexDigit_lower _ (by omega)
    · exact ih c h

theorem hexEncodeToString_take (k : Nat) (l : List Byte) :
    (hexEncodeToString l).take (2 * k) = hexEncodeToString (l.take k) := by
  induction k generalizing l with
  | zero => simp [hexEncodeToString]
  | succ k ih =>
    cases l with
    | nil => simp [hexEncodeToString]
    | cons v rest =>
      have h2 : 2 * (k + 1) = (2 * k + 1) + 1 := by omega
      rw [h2]
      simp only [hexEncodeToString, List.take_succ_cons, ih]

theorem decDigit_isDecDigit (d : Nat) (h : d < 10) : isDecDigit (decDigit d) := by
  have key : ∀ i : Fin 10, isDecDigit (decDigit i.val) := by
    unfold isDecDigit
    decide
  exact key ⟨d, h⟩

theorem decDigitsAux_digits (fuel n : Nat) (acc : GoString)
    (hacc : ∀ c ∈ acc, isDecDigit c) :
    ∀ c ∈ decDigitsAux fuel n acc, isDecDigit c := by
  induction fuel generalizing n acc with
  | zero => simpa [decDigitsAux] using hacc
  | succ fuel ih =>
    unfold decDigitsAux
    split
    · intro c hc
      rcases List.mem_cons.mp hc with h | h
      · rw [h]; exact decDigit_isDecDigit n (by assumption)
      · exact hacc c h
    · apply ih
      intro c hc
      rcases List.mem_cons.mp hc with h | h
      · rw [h]; exact decDigit_isDecDigit _ (Nat.mod_lt _ (by decide))
      · exact hacc c h

theorem decDigits_digits (n : Nat) : ∀ c ∈ decDigits n, isDecDigit c :=
  decDigitsAux_digits (n + 1) n [] (by simp)

theorem decDigitsAux_length_le (fuel n k : Nat) (acc : GoString)
    (hk : 1 ≤ k) (hn : n < 10 ^ k) :
    (decDigitsAux fuel n acc).length ≤ k + acc.length := by
  induction fuel generalizing n k acc with
  | zero => simp [decDigitsAux]
  | succ fuel ih =>
    unfold decDigitsAux
    split
    · simp; omega
    · rename_i h10
      have hk2 : 2 ≤ k := by
        rcases Nat.lt_or_ge k 2 with h | h
        · have : k = 1 := by omega
          subst this
          omega
        · exact h
      have hdiv : n / 10 < 10 ^ (k - 1) := by
        have hpow : 10 ^ k = 10 ^ (k - 1) * 10 := by
          rw [← Nat.pow_succ]; congr 1; omega
        rw [hpow] at hn
        exact Nat.div_lt_of_lt_mul (by rw [Nat.mul_comm]; exact hn)
      have := ih (n / 10) (k - 1) (decDigit (n % 10) :: acc) (by omega) hdiv
      simp at this
      omega

theorem decDigitsAux_length_ge (fuel n : Nat) (acc : GoString) :
    acc.length + 1 ≤ (decDigitsAux (fuel + 1) n acc).length := by
  induction fuel generalizing n acc with
  | zero =>
    unfold decDigitsAux
    split <;> simp [decDigitsAux]
  | succ fuel ih =>
    unfold decDigitsAux
    split
    · simp
    · have := ih (n / 10) (decDigit (n % 10) :: acc)
      simp at this
      omega

/-- The fuel of `decDigits` is never exhausted: the result is the base-10
expansion of `n`, most significant digit first. -/
theorem decDigitsAux_eq_digits (fuel n : Nat) (acc : GoString)
    (hpos : 0 < n) (hfuel : n < fuel) :
    decDigitsAux fuel n acc = ((Nat.digits 10 n).reverse.map decDigit) ++ acc := by
  induction fuel generalizing n acc with
  | zero => omega
  | succ fuel ih =>
    unfold decDigitsAux
    split
    · rename_i h10
      rw [Nat.digits_of_lt 10 n (by omega) h10]
      simp
    · rename_i h10
      rw [ih (n / 10) _ (Nat.div_pos (by omega) (by decide))
        (by have := Nat.div_lt_self hpos (by decide : 1 < 10); omega)]
      rw [Nat.digits_def' (by decide) hpos]
      simp

theorem decDigits_eq_digits (n : Nat) (hpos : 0 < n) :
    decDigits n = (Nat.digits 10 n).reverse.map decDigit := by
  unfold decDigits
  rw [decDigitsAux_eq_digits (n + 1) n [] hpos (by omega)]
  simp

theorem decDigits_zero : decDigits 0 = str "0" := by decide

theorem formatInt_ne_nil (v : Int) : formatInt v ≠ [] := by
  unfold formatInt
  split
  · simp
  · intro h
    have := decDigitsAux_length_ge v.natAbs v.natAbs []
    unfold decDigits at h
    rw [h] at this
    simp at this

theorem formatInt_bytes (v : Int) :
    ∀ c ∈ formatInt v, c = (45 : Byte) ∨ isDecDigit c := by
  unfold formatInt
  split
  · intro c hc
    rcases List.mem_cons.mp hc with h | h
    · exact Or.inl h
    · exact Or.inr (decDigits_digits _ c h)
  · intro c hc
    exact Or.inr (decDigits_digits _ c hc)

theorem formatInt_length (v : Int) (hlo : -(2 : Int) ^ 63 ≤ v) (hhi : v < (2 : Int) ^ 63) :
    1 ≤ (formatInt v).length ∧ (formatInt v).length ≤ 20 := by
  have habs : v.natAbs < 10 ^ 19 := by omega
  have hle := decDigitsAux_length_le (v.natAbs + 1) v.natAbs 19 [] (by decide) habs
  have hge := decDigitsAux_length_ge v.natAbs v.natAbs []
  unfold formatInt
  split
  · simp only [List.length_cons]
    unfold decDigits
    simp at hle hge
    omega
  · unfold decDigits
    simp at hle hge
    omega

/-- Every byte of an identifier is a lowercase hex digit, a decimal digit or
the minus sign. -/
theorem generateFileID_bytes (rnd : Option RandBuf) (now : Int) :
    ∀ c ∈ generateFileID rnd now, isLowerHex c ∨ c = (45 : Byte) := by
  intro c hc
  cases rnd with
  | none =>
    rcases formatInt_bytes now c hc with h | h
    · exact Or.inr h
    · exact Or.inl (Or.inl h)
  | some b => exact Or.inl (hexEncodeToString_lower b.val c (List.mem_of_mem_take hc))

theorem generateFileID_ne_nil (rnd : Option RandBuf) (now : Int) :
    generateFileID rnd now ≠ [] := by
  cases rnd with
  | none => exact formatInt_ne_nil now
  | some b =>
    intro h
    have hl : (generateFileID (some b) now).length = 12 := by
      simp [generateFileID, hexEncodeToString_length, b.property]
    rw [h] at hl
    simp at hl

theorem generateFileID_no_byte (rnd : Option RandBuf) (now : Int) (x : Byte)
    (hx : ¬ isLowerHex x) (hx2 : x ≠ (45 : Byte)) : x ∉ generateFileID rnd now := by
  intro hmem
  rcases generateFileID_bytes rnd now x hmem with h | h
  · exact hx h
  · exact hx2 h

/-! ## Facts about paths -/

theorem splitSlash_of_not_mem (n : GoString) (h : slash ∉ n) : splitSlash n = [n] := by
  induction n with
  | nil => rfl
  | cons c cs ih =>
    have hc : c ≠ slash := fun e => h (by simp [e])
    have hcs : slash ∉ cs := fun e => h (List.mem_cons_of_mem _ e)
    simp [splitSlash, hc, ih hcs]

theorem splitSlash_append (a b : GoString) (h : slash ∉ a) :
    splitSlash (a ++ slash :: b) = a :: splitSlash b := by
  induction a with
  | nil => simp [splitSlash]
  | cons c cs ih =>
    have hc : c ≠ slash := fun e => h (by simp [e])
    have hcs : slash ∉ cs := fun e => h (List.mem_cons_of_mem _ e)
    simp [splitSlash, hc, ih hcs]

theorem uploadDir_slash (n : GoString) :
    uploadDir ++ str "/" ++ n = dot ++ slash :: (str "uploads" ++ slash :: n) := by
  have h : uploadDir ++ str "/" = dot ++ slash :: (str "uploads" ++ [slash]) := by decide
  rw [h]
  simp

/-- Joining the upload directory with a valid entry name gives `uploads/name`. -/
theorem filepathJoin_uploadDir (n : GoString) (h : validName n) :
    filepathJoin uploadDir n = str "uploads/" ++ n := by
  obtain ⟨hne, hslash, hdot, hdotdot⟩ := h
  have hup : uploadDir ≠ [] := by decide
  have hsplit : splitSlash (uploadDir ++ str "/" ++ n) = [dot, str "uploads", n] := by
    have hd : slash ∉ dot := by decide
    have hu : slash ∉ str "uploads" := by decide
    rw [uploadDir_slash, splitSlash_append _ _ hd, splitSlash_append _ _ hu,
      splitSlash_of_not_mem n hslash]
  have hnonempty : uploadDir ++ str "/" ++ n ≠ [] := by
    rw [uploadDir_slash]; simp [dot, str]
  have hhead : ((uploadDir ++ str "/" ++ n).head? == some slash) = false := by
    have hd : dot = [46] := by decide
    rw [uploadDir_slash, hd]
    rfl
  have h1 : ¬ (str "uploads" = [] ∨ str "uploads" = dot) := by decide
  have h2 : ¬ (str "uploads" = dotdot) := by decide
  have h3 : ¬ (n = [] ∨ n = dot) := by
    rintro (e | e)
    · exact hne e
    · exact hdot e
  have hloop : cleanLoop false [] [dot, str "uploads", n] = [str "uploads", n] := by
    simp [cleanLoop, h1, h2, h3, hdotdot]
  have hjoin : joinSlash [str "uploads", n] = str "uploads/" ++ n := by
    have : str "uploads/" = str "uploads" ++ [slash] := by decide
    rw [this]
    simp [joinSlash]
  unfold filepathJoin
  rw [if_pos hup]
  unfold filepathClean
  rw [if_neg hnonempty]
  simp only [hhead, hsplit, hloop, hjoin]
  simp

theorem dropWhile_reverse_of_getLast (p : Byte → Bool) (l : GoString)
    (h : ∀ c, l.getLast? = some c → p c = false) :
    (l.reverse.dropWhile p).reverse = l := by
  cases hr : l.reverse with
  | nil =>
    have : l = [] := List.reverse_eq_nil_iff.mp hr
    simp [this]
  | cons c cs =>
    have hl : l = cs.reverse ++ [c] := by
      have := congrArg List.reverse hr
      simpa using this
    have hp : p c = false := h c (by rw [hl]; simp)
    rw [List.dropWhile_cons, hp]
    simp [hl]

theorem takeWhile_append_slash (a b : GoString) (h : slash ∉ a) :
    (a ++ slash :: b).takeWhile (fun c => c != slash) = a := by
  induction a with
  | nil => simp [List.takeWhile]
  | cons c cs ih =>
    have hc : c ≠ slash := fun e => h (by simp [e])
    have hcs : slash ∉ cs := fun e => h (List.mem_cons_of_mem _ e)
    have hb : (c != slash) = true := by simpa using hc
    rw [List.cons_append, List.takeWhile_cons, hb]
    simp [ih hcs]

/-- The base name of `uploads/name` is `name`, for a name without separator. -/
theorem filepathBase_uploads (n : GoString) (hne : n ≠ []) (hslash : slash ∉ n) :
    filepathBase (str "uploads/" ++ n) = n := by
  have hpath : str "uploads/" ++ n ≠ [] := by simp [hne]
  have hstrip : ((str "uploads/" ++ n).reverse.dropWhile (fun c => c == slash)).reverse
      = str "uploads/" ++ n := by
    apply dropWhile_reverse_of_getLast
    intro c hc
    rw [List.getLast?_append_of_ne_nil _ hne] at hc
    have hmem : c ∈ n := List.mem_of_getLast?_eq_some hc
    have : c ≠ slash := fun e => hslash (e ▸ hmem)
    simpa using this
  have hrev : (str "uploads/" ++ n).reverse = n.reverse ++ slash :: (str "uploads").reverse := by
    have : str "uploads/" = str "uploads" ++ [slash] := by decide
    rw [this]
    simp
  have hlast : (((str "uploads/" ++ n).reverse).takeWhile (fun c => c != slash)).reverse = n := by
    rw [hrev, takeWhile_append_slash _ _ (by simpa using hslash)]
    simp
  unfold filepathBase
  rw [if_neg hpath]
  simp only [hstrip, hlast]
  rw [if_neg hne]

theorem childName_uploads (n : GoString) (h : validName n) :
    childName (str "uploads/" ++ n) = some n := by
  have hlen : (str "uploads/").length = 8 := by decide
  have htake : (str "uploads/" ++ n).take 8 = str "uploads/" := List.take_left' hlen
  have hdrop : (str "uploads/" ++ n).drop 8 = n := List.drop_left' hlen
  unfold childName
  rw [htake, hdrop]
  simp [h]

/-! ## Facts about the lookup loop -/

theorem startsWith_iff (name fileID : GoString) :
    startsWith name fileID = true ↔ ∃ t, name = fileID ++ t := by
  unfold startsWith
  constructor
  · intro h
    simp only [Bool.and_eq_true, decide_eq_true_eq, beq_iff_eq] at h
    exact ⟨name.drop fileID.length, by
      conv_lhs => rw [← List.take_append_drop fileID.length name]
      rw [h.2]⟩
  · rintro ⟨t, rfl⟩
    simp

theorem findFile_none_iff (fileID : GoString) (dir : Dir) :
    findFile fileID dir = none ↔
      ∀ e ∈ dir, e.IsDir = false → startsWith e.Name fileID = false := by
  induction dir with
  | nil => simp [findFile]
  | cons x xs ih =>
    unfold findFile
    cases hd : x.IsDir <;> cases hs : startsWith x.Name fileID <;> simp [hd, hs, ih]

theorem findFile_first (fileID : GoString) (pre post : Dir) (e : DirEntry)
    (hfile : e.IsDir = false) (hstart : startsWith e.Name fileID = true)
    (hpre : ∀ x ∈ pre, x.IsDir = false → startsWith x.Name fileID = false) :
    findFile fileID (pre ++ e :: post) = some (filepathJoin uploadDir e.Name) := by
  induction pre with
  | nil => simp [findFile, hfile, hstart]
  | cons x xs ih =>
    have hx := hpre x (List.mem_cons_self _ _)
    have hxs : ∀ y ∈ xs, y.IsDir = false → startsWith y.Name fileID = false :=
      fun y hy => hpre y (List.mem_cons_of_mem _ hy)
    rw [List.cons_append]
    unfold findFile
    cases hd : x.IsDir
    · simp [hx hd, ih hxs]
    · simp [ih hxs]

theorem findFile_some (fileID : GoString) (dir : Dir) (p : GoString)
    (h : findFile fileID dir = some p) :
    ∃ pre e post, dir = pre ++ e :: post ∧ e.IsDir = false ∧ startsWith e.Name fileID = true ∧
      (∀ x ∈ pre, x.IsDir = false → startsWith x.Name fileID = false) ∧
      p = filepathJoin uploadDir e.Name := by
  induction dir with
  | nil => simp [findFile] at h
  | cons x xs ih =>
    unfold findFile at h
    by_cases hsel : x.IsDir = false ∧ startsWith x.Name fileID = true
    · refine ⟨[], x, xs, rfl, hsel.1, hsel.2, by simp, ?_⟩
      simp [hsel.1, hsel.2] at h
      exact h.symm
    · have hrest : findFile fileID xs = some p := by
        cases hd : x.IsDir <;> cases hs : startsWith x.Name fileID <;> simp_all
      obtain ⟨pre, e, post, hdir, hf, hst, hpre, hp⟩ := ih hrest
      refine ⟨x :: pre, e, post, by simp [hdir], hf, hst, ?_, hp⟩
      intro y hy hyd
      rcases List.mem_cons.mp hy with rfl | hy
      · cases hs : startsWith y.Name fileID
        · rfl
        · exact absurd ⟨hyd, hs⟩ hsel
      · exact hpre y hy hyd

/-- The model of `filepath.Clean` agrees with the results the Go documentation
and test table give for these paths. -/
theorem filepathClean_examples :
    filepathClean (str "") = str "." ∧
    filepathClean (str "abc") = str "abc" ∧
    filepathClean (str "abc/def") = str "abc/def" ∧
    filepathClean (str "a//c") = str "a/c" ∧
    filepathClean (str "abc/") = str "abc" ∧
    filepathClean (str "abc/./def") = str "abc/def" ∧
    filepathClean (str "/./abc/def") = str "/abc/def" ∧
    filepathClean (str "abc/def/ghi/../jkl") = str "abc/def/jkl" ∧
    filepathClean (str "abc/def/../..") = str "." ∧
    filepathClean (str "/abc/def/../..") = str "/" ∧
    filepathClean (str "abc/def/../../..") = str ".." ∧
    filepathClean (str "/abc/def/../../..") = str "/" ∧
    filepathClean (str "abc/def/../../../ghi/jkl/../../../mno") = str "../../mno" ∧
    filepathClean (str "/../abc") = str "/abc" ∧
    filepathClean (str "abc/./../def") = str "def" ∧
    filepathClean (str "abc//./../def") = str "def" ∧
    filepathClean (str "abc/../../././../def") = str "../../def" ∧
    filepathClean (str "./uploads/0a1b2c3d4e5f_a.txt") = str "uploads/0a1b2c3d4e5f_a.txt" := by
  decide

/-- The model of `filepath.Base` agrees with the results of the Go test table
for these paths. -/
theorem filepathBase_examples :
    filepathBase (str "") = str "." ∧
    filepathBase (str ".") = str "." ∧
    filepathBase (str "/.") = str "." ∧
    filepathBase (str "/") = str "/" ∧
    filepathBase (str "////") = str "/" ∧
    filepathBase (str "x/") = str "x" ∧
    filepathBase (str "abc") = str "abc" ∧
    filepathBase (str "abc/def") = str "def" ∧
    filepathBase (str "a/b/.x") = str ".x" ∧
    filepathBase (str "a/b/c.") = str "c." ∧
    filepathBase (str "a/b/c.x") = str "c.x" := by
  decide

/-- The model of `filepath.Join` on the upload directory. -/
theorem filepathJoin_examples :
    filepathJoin uploadDir (str "0a1b2c3d4e5f_a.txt") = str "uploads/0a1b2c3d4e5f_a.txt" ∧
    filepathJoin uploadDir (str "0a1b2c3d4e5f_/") = str "uploads/0a1b2c3d4e5f_" ∧
    filepathJoin uploadDir (str "0a1b2c3d4e5f_..") = str "uploads/0a1b2c3d4e5f_.." ∧
    filepathJoin uploadDir (str "") = str "uploads" ∧
    filepathJoin (str "") (str "") = str "" ∧
    filepathJoin (str "a") (str "../../b") = str "../b" := by
  decide

/-! ## Facts about the handlers -/

theorem recoverFilename_composite (fileID filename : GoString) (h : filename ≠ []) :
    recoverFilename fileID (compositeName fileID filename) = filename := by
  have hlen : 0 < filename.length := List.length_pos.mpr h
  unfold recoverFilename compositeName
  simp only [str_underscore, List.length_append, List.length_cons, List.length_nil]
  rw [if_pos (by omega)]
  have : (fileID ++ [underscore]).length = fileID.length + 1 := by simp
  exact List.drop_left' this

theorem find_selected (fileID : GoString) (pre post : Dir) (e : DirEntry)
    (hfile : e.IsDir = false) (hstart : startsWith e.Name fileID = true)
    (hpre : ∀ x ∈ pre, x.IsDir = false → startsWith x.Name fileID = false) :
    (pre ++ e :: post).find? (fun x => x.Name == e.Name && !x.IsDir) = some e := by
  induction pre with
  | nil => simp [hfile]
  | cons x xs ih =>
    have hxs : ∀ y ∈ xs, y.IsDir = false → startsWith y.Name fileID = false :=
      fun y hy => hpre y (List.mem_cons_of_mem _ hy)
    have hx : (x.Name == e.Name && !x.IsDir) = false := by
      cases hd : x.IsDir
      · have hs := hpre x (List.mem_cons_self _ _) hd
        have hne : x.Name ≠ e.Name := by
          intro heq
          rw [heq, hstart] at hs
          exact Bool.noConfusion hs
        simp [hne]
      · simp
    rw [List.cons_append, List.find?_cons, hx]
    exact ih hxs

/-- The response of a download that meets no fault, for the entry the lookup
selects. -/
theorem handleDownload_selected (dir pre post : Dir) (e : DirEntry) (r : Request)
    (fileID : GoString)
    (hm : r.Method = str "GET") (hp : r.URLPath = str "/files/" ++ fileID)
    (hid : fileID ≠ []) (hdir : dir = pre ++ e :: post)
    (hfile : e.IsDir = false) (hstart : startsWith e.Name fileID = true)
    (hpre : ∀ x ∈ pre, x.IsDir = false → startsWith x.Name fileID = false)
    (hvalid : validName e.Name) :
    handleDownload ⟨false, false, false⟩ dir r =
      some ⟨downloadResponse (recoverFilename fileID e.Name) e.data,
            some (str "uploads/" ++ e.Name)⟩ := by
  have hdrop : r.URLPath.drop (str "/files/").length = fileID := by
    rw [hp]; exact List.drop_left' rfl
  have hlong : ¬ r.URLPath.length < (str "/files/").length := by
    rw [hp]; simp
  have hfind : findFile fileID dir = some (filepathJoin uploadDir e.Name) := by
    rw [hdir]; exact findFile_first fileID pre post e hfile hstart hpre
  have hopen : osOpen false dir (str "uploads/" ++ e.Name) = some e := by
    unfold osOpen
    simp only [Bool.false_eq_true, if_false, childName_uploads e.Name hvalid]
    rw [hdir]
    exact find_selected fileID pre post e hfile hstart hpre
  unfold handleDownload
  rw [if_neg (by simp [hm]), if_neg hlong]
  simp only [hdrop]
  rw [if_neg hid]
  simp only [Bool.false_eq_true, if_false, hfind, filepathJoin_uploadDir e.Name hvalid, hopen,
    filepathBase_uploads e.Name hvalid.1 hvalid.2.1]

theorem handleDownload_notFound (faults : DownloadFaults) (dir : Dir) (r : Request)
    (fileID : GoString)
    (hm : r.Method = str "GET") (hp : r.URLPath = str "/files/" ++ fileID)
    (hid : fileID ≠ []) (hfault : faults.readDirErr = false)
    (hnone : findFile fileID dir = none) :
    handleDownload faults dir r = some ⟨httpError (str "File not found") 404, none⟩ := by
  have hdrop : r.URLPath.drop (str "/files/").length = fileID := by
    rw [hp]; exact List.drop_left' rfl
  have hlong : ¬ r.URLPath.length < (str "/files/").length := by
    rw [hp]; simp
  unfold handleDownload
  rw [if_neg (by simp [hm]), if_neg hlong]
  simp only [hdrop]
  rw [if_neg hid]
  simp [hfault, hnone]

theorem handleDownload_opened (faults : DownloadFaults) (dir : Dir) (r : Request)
    (res : DownloadResult) (p : GoString)
    (h : handleDownload faults dir r = some res) (hopen : res.opened = some p) :
    findFile (r.URLPath.drop (str "/files/").length) dir = some p := by
  unfold handleDownload at h
  split at h
  · simp at h; rw [← h] at hopen; simp at hopen
  · split at h
    · simp at h
    · simp only [] at h
      split at h
      · simp at h; rw [← h] at hopen; simp at hopen
      · split at h
        · simp at h; rw [← h] at hopen; simp at hopen
        · split at h
          · simp at h; rw [← h] at hopen; simp at hopen
          · rename_i filePath hfind
            split at h
            · simp at h; rw [← h] at hopen; simp at hopen; rw [← hopen]; exact hfind
            · split at h
              · simp at h; rw [← h] at hopen; simp at hopen; rw [← hopen]; exact hfind
              · simp at h; rw [← h] at hopen; simp at hopen; rw [← hopen]; exact hfind

theorem insertEntry_split (e : DirEntry) (dir : Dir) :
    ∃ pre post, dir = pre ++ post ∧ insertEntry e dir = pre ++ e :: post := by
  induction dir with
  | nil => exact ⟨[], [], rfl, rfl⟩
  | cons x xs ih =>
    unfold insertEntry
    split
    · exact ⟨[], x :: xs, rfl, rfl⟩
    · obtain ⟨pre, post, hxs, hins⟩ := ih
      exact ⟨x :: pre, post, by simp [hxs], by simp [hins]⟩

theorem filter_name_ne (n : GoString) (dir : Dir) (h : ∀ x ∈ dir, x.Name ≠ n) :
    dir.filter (fun e => e.Name != n) = dir := by
  apply List.filter_eq_self.mpr
  intro x hx
  simpa using h x hx

theorem any_name_dir (n : GoString) (dir : Dir) (h : ∀ x ∈ dir, x.Name ≠ n) :
    dir.any (fun e => e.Name == n && e.IsDir) = false := by
  apply Bool.eq_false_iff.mpr
  intro hany
  obtain ⟨x, hx, hcond⟩ := List.any_eq_true.mp hany
  simp only [Bool.and_eq_true, beq_iff_eq] at hcond
  exact h x hx hcond.1

theorem writeFile_other (n : GoString) (bytes : List Byte) (dir : Dir)
    (h : ∀ x ∈ dir, x.Name ≠ n) : writeFile dir n bytes = dir := by
  unfold writeFile
  induction dir with
  | nil => rfl
  | cons x xs ih =>
    have hx : x.Name ≠ n := h x (List.mem_cons_self _ _)
    have hxs : ∀ y ∈ xs, y.Name ≠ n := fun y hy => h y (List.mem_cons_of_mem _ hy)
    simp only [List.map_cons, hx, false_and, if_false]
    rw [ih hxs]

theorem writeFile_created (n : GoString) (bytes : List Byte) (pre post : Dir)
    (hpre : ∀ x ∈ pre, x.Name ≠ n) (hpost : ∀ x ∈ post, x.Name ≠ n) :
    writeFile (pre ++ ⟨n, false, []⟩ :: post) n bytes = pre ++ ⟨n, false, bytes⟩ :: post := by
  have h1 := writeFile_other n bytes pre hpre
  have h2 := writeFile_other n bytes post hpost
  unfold writeFile at h1 h2 ⊢
  rw [List.map_append, List.map_cons, h1, h2]
  simp

theorem compositeName_startsWith (fileID filename : GoString) :
    startsWith (compositeName fileID filename) fileID = true :=
  (startsWith_iff _ _).mpr ⟨str "_" ++ filename, by simp [compositeName]⟩

theorem slash_not_hex : ¬ isLowerHex slash := by
  unfold isLowerHex
  decide

theorem underscore_not_hex : ¬ isLowerHex underscore := by
  unfold isLowerHex
  decide

/-- The composite name of a generated identifier and a file name without
separator is a valid entry name. -/
theorem compositeName_valid (rnd : Option RandBuf) (now : Int) (filename : GoString)
    (hslash : slash ∉ filename) :
    validName (compositeName (generateFileID rnd now) filename) := by
  have hmem : underscore ∈ compositeName (generateFileID rnd now) filename := by
    simp [compositeName, str_underscore]
  refine ⟨?_, ?_, ?_, ?_⟩
  · intro h; rw [h] at hmem; simp at hmem
  · intro h
    simp only [compositeName, str_underscore, List.mem_append, List.mem_singleton] at h
    rcases h with (h | h) | h
    · exact generateFileID_no_byte rnd now slash slash_not_hex (by decide) h
    · exact absurd h (by decide)
    · exact hslash h
  · intro h; rw [h] at hmem; revert hmem; decide
  · intro h; rw [h] at hmem; revert hmem; decide

/-- A well-formed upload that meets no fault stores the content under the
composite name, at some place of the listing, and reports its size. -/
theorem handleUpload_stored (rnd : Option RandBuf) (now : Int) (dir : Dir) (r : Request)
    (files : List (GoString × FileHeader)) (header : FileHeader)
    (hm : r.Method = str "POST") (hb : r.bodyLength ≤ maxFileSize)
    (hf : r.files = some files) (hh : formFile files (str "file") = some header)
    (hslash : slash ∉ header.Filename)
    (hfresh : ∀ e ∈ dir, startsWith e.Name (generateFileID rnd now) = false) :
    ∃ pre post, dir = pre ++ post ∧
      handleUpload rnd now ⟨false, none⟩ dir r =
        ({ status := 200
           header := [(str "Content-Type", str "application/json")]
           body := uploadJSON (generateFileID rnd now) header.Filename header.content.length
             (str "http://" ++ getHost r ++ str "/files/" ++ generateFileID rnd now) },
         pre ++ ⟨compositeName (generateFileID rnd now) header.Filename, false,
                  header.content⟩ :: post) := by
  have hvalid := compositeName_valid rnd now header.Filename hslash
  have hne : ∀ x ∈ dir, x.Name ≠ compositeName (generateFileID rnd now) header.Filename := by
    intro x hx heq
    have := hfresh x hx
    rw [heq, compositeName_startsWith] at this
    exact Bool.noConfusion this
  obtain ⟨pre, post, hsplit, hins⟩ :=
    insertEntry_split ⟨compositeName (generateFileID rnd now) header.Filename, false, []⟩ dir
  have hpre : ∀ x ∈ pre, x.Name ≠ compositeName (generateFileID rnd now) header.Filename :=
    fun x hx => hne x (by rw [hsplit]; exact List.mem_append_left _ hx)
  have hpost : ∀ x ∈ post, x.Name ≠ compositeName (generateFileID rnd now) header.Filename :=
    fun x hx => hne x (by rw [hsplit]; exact List.mem_append_right _ hx)
  refine ⟨pre, post, hsplit, ?_⟩
  have hparse : parseMultipartForm r = some files := by
    unfold parseMultipartForm
    rw [if_neg (by omega), hf]
  have hcreate : osCreate false dir
      (str "uploads/" ++ compositeName (generateFileID rnd now) header.Filename) =
      some (compositeName (generateFileID rnd now) header.Filename,
        pre ++ ⟨compositeName (generateFileID rnd now) header.Filename, false, []⟩ :: post) := by
    unfold osCreate
    simp only [Bool.false_eq_true, if_false, childName_uploads _ hvalid,
      any_name_dir _ dir hne, filter_name_ne _ dir hne, hins]
  unfold handleUpload
  rw [if_neg (by simp [hm])]
  simp only [hparse, hh, filepathJoin_uploadDir _ hvalid, hcreate, ioCopy,
    writeFile_created _ _ pre post hpre hpost]

/-! ## Identifier generator: claims -/

/-- C5: on the strong-random path, for every 16-byte buffer delivered by the
random source, `generateFileID` returns exactly 12 characters, each of the
lowercase hex alphabet, and the string is the hex encoding of the first 6
bytes of the buffer. -/
theorem generateFileID_random_hex (b : RandBuf) (now : Int) :
    (generateFileID (some b) now).length = 12 ∧
    (∀ c ∈ generateFileID (some b) now, isLowerHex c) ∧
    generateFileID (some b) now = hexEncodeToString (b.val.take 6) := by
  refine ⟨?_, ?_, ?_⟩
  · simp [generateFileID, hexEncodeToString_length, b.property]
  · intro c hc
    exact hexEncodeToString_lower b.val c (List.mem_of_mem_take hc)
  · exact hexEncodeToString_take 6 b.val

/-- C6, as the claim states it, fails: when the random source fails at a
present-day clock value the identifier is the 19-digit timestamp, not a
12-character token. -/
theorem generateFileID_fallback_length_counterexample :
    generateFileID none 1700000000000000000 = str "1700000000000000000" ∧
    (generateFileID none 1700000000000000000).length = 19 ∧
    (generateFileID none 1700000000000000000).length ≠ 12 := by
  decide

/-- C6 amended: on the random path the identifier has exactly 12 characters;
on the fallback path it is the decimal rendering of the int64 nanosecond
timestamp, of 1 to 20 characters. -/
theorem generateFileID_length (rnd : Option RandBuf) (now : Int)
    (hlo : -(2 : Int) ^ 63 ≤ now) (hhi : now < (2 : Int) ^ 63) :
    (rnd ≠ none → (generateFileID rnd now).length = 12) ∧
    (rnd = none → generateFileID rnd now = formatInt now ∧
      1 ≤ (generateFileID rnd now).length ∧ (generateFileID rnd now).length ≤ 20) := by
  constructor
  · intro h
    cases rnd with
    | none => exact absurd rfl h
    | some b => simp [generateFileID, hexEncodeToString_length, b.property]
  · intro h
    subst h
    exact ⟨rfl, formatInt_length now hlo hhi⟩

theorem generateFileID_length_witness :
    (none ≠ (none : Option RandBuf) → (generateFileID none 1700000000000000000).length = 12) ∧
    ((none : Option RandBuf) = none →
      generateFileID none 1700000000000000000 = formatInt 1700000000000000000 ∧
      1 ≤ (generateFileID none 1700000000000000000).length ∧
      (generateFileID none 1700000000000000000).length ≤ 20) :=
  generateFileID_length none 1700000000000000000 (by norm_num) (by norm_num)

/-- C7: for every outcome of `generateFileID` (the random path, and the
fallback path for every timestamp, negative ones included) the identifier is
not empty and contains no `_`, so the first `_` of the composite name
`id + "_" + filename` is at position `len(id)`: it is the separator. -/
theorem generateFileID_no_separator (rnd : Option RandBuf) (now : Int) (filename : GoString) :
    generateFileID rnd now ≠ [] ∧
    underscore ∉ generateFileID rnd now ∧
    (compositeName (generateFileID rnd now) filename).indexOf underscore
      = (generateFileID rnd now).length := by
  have hnot : underscore ∉ generateFileID rnd now :=
    generateFileID_no_byte rnd now underscore underscore_not_hex (by decide)
  refine ⟨generateFileID_ne_nil rnd now, hnot, ?_⟩
  unfold compositeName
  rw [str_underscore, List.append_assoc, List.indexOf_append_of_not_mem hnot]
  simp

/-! ## File name recovery: claims -/

/-- C2: for every identifier and every original file name that contains the
separator `_` (anywhere, any number of times), the prefix stripping of
`handleDownload` applied with `fileID = id` to the composite name
`id + "_" + filename` of `handleUpload` yields exactly the original file name;
the same holds through `filepath.Join` and `filepath.Base` for a generated
identifier and a file name without path separator. -/
theorem recoverFilename_underscore (fileID filename : GoString)
    (h : underscore ∈ filename) :
    recoverFilename fileID (compositeName fileID filename) = filename ∧
    (compositeName fileID filename).drop (fileID.length + 1) = filename ∧
    (∀ (rnd : Option RandBuf) (now : Int), slash ∉ filename →
      recoverFilename (generateFileID rnd now)
        (filepathBase (filepathJoin uploadDir
          (compositeName (generateFileID rnd now) filename))) = filename) := by
  have hne : filename ≠ [] := fun e => by rw [e] at h; simp at h
  refine ⟨recoverFilename_composite fileID filename hne, ?_, ?_⟩
  · unfold compositeName
    rw [str_underscore]
    exact List.drop_left' (by simp)
  · intro rnd now hslash
    have hvalid := compositeName_valid rnd now filename hslash
    rw [filepathJoin_uploadDir _ hvalid, filepathBase_uploads _ hvalid.1 hvalid.2.1]
    exact recoverFilename_composite _ filename hne

theorem recoverFilename_underscore_witness :
    recoverFilename (str "0a1b2c3d4e5f") (compositeName (str "0a1b2c3d4e5f") (str "_my_file_.txt"))
      = str "_my_file_.txt" ∧
    (compositeName (str "0a1b2c3d4e5f") (str "_my_file_.txt")).drop
      ((str "0a1b2c3d4e5f").length + 1) = str "_my_file_.txt" ∧
    (∀ (rnd : Option RandBuf) (now : Int), slash ∉ str "_my_file_.txt" →
      recoverFilename (generateFileID rnd now)
        (filepathBase (filepathJoin uploadDir
          (compositeName (generateFileID rnd now) (str "_my_file_.txt")))) = str "_my_file_.txt") :=
  recoverFilename_underscore (str "0a1b2c3d4e5f") (str "_my_file_.txt") (by decide)

/-! ## Lookup: claims -/

theorem startsWith_true_iff (name fileID : GoString) :
    startsWith name fileID = true ↔ fileID <+: name := by
  rw [startsWith_iff]
  constructor
  · rintro ⟨t, h⟩; exact ⟨t, h.symm⟩
  · rintro ⟨t, h⟩; exact ⟨t, h.symm⟩

theorem startsWith_false_iff (name fileID : GoString) :
    startsWith name fileID = false ↔ ¬ fileID <+: name := by
  rw [← startsWith_true_iff]
  cases startsWith name fileID <;> simp

theorem handleDownload_found (faults : DownloadFaults) (dir : Dir) (r : Request)
    (fileID p : GoString)
    (hm : r.Method = str "GET") (hp : r.URLPath = str "/files/" ++ fileID)
    (hid : fileID ≠ []) (hfault : faults.readDirErr = false)
    (hfind : findFile fileID dir = some p) :
    ∃ res, handleDownload faults dir r = some res ∧ res.opened = some p := by
  have hdrop : r.URLPath.drop (str "/files/").length = fileID := by
    rw [hp]; exact List.drop_left' rfl
  have hlong : ¬ r.URLPath.length < (str "/files/").length := by
    rw [hp]; simp
  unfold handleDownload
  rw [if_neg (by simp [hm]), if_neg hlong]
  simp only [hdrop]
  rw [if_neg hid]
  simp only [hfault, Bool.false_eq_true, if_false, hfind]
  cases osOpen faults.openErr dir p with
  | none => exact ⟨_, rfl, rfl⟩
  | some file =>
    cases faults.statErr with
    | true => exact ⟨_, rfl, rfl⟩
    | false => exact ⟨_, rfl, rfl⟩

/-- C4: for every directory listing and every non-empty `fileID`,
`handleDownload` selects the first entry, in enumeration order, that is not a
directory and whose name starts with `fileID` (whatever follows it in the
listing, and whatever directories precede it): it opens the path of that
entry and, when no fault occurs, answers with its content.  It reports
NotFound if and only if no non-directory entry name starts with `fileID`. -/
theorem handleDownload_first_match (faults : DownloadFaults) (dir : Dir) (r : Request)
    (fileID : GoString)
    (hm : r.Method = str "GET") (hp : r.URLPath = str "/files/" ++ fileID)
    (hid : fileID ≠ []) (hfault : faults.readDirErr = false) :
    (∀ pre e post, dir = pre ++ e :: post → e.IsDir = false → fileID <+: e.Name →
        (∀ x ∈ pre, x.IsDir = true ∨ ¬ fileID <+: x.Name) →
        findFile fileID dir = some (filepathJoin uploadDir e.Name) ∧
        (∃ res, handleDownload faults dir r = some res ∧
          res.opened = some (filepathJoin uploadDir e.Name)) ∧
        (validName e.Name →
          handleDownload noDownloadFaults dir r =
            some ⟨downloadResponse (recoverFilename fileID e.Name) e.data,
                  some (str "uploads/" ++ e.Name)⟩)) ∧
    (handleDownload faults dir r = some ⟨httpError (str "File not found") 404, none⟩ ↔
        ∀ e ∈ dir, e.IsDir = false → ¬ fileID <+: e.Name) := by
  constructor
  · intro pre e post hdir hfile hstart hpre
    have hstart' := (startsWith_true_iff e.Name fileID).mpr hstart
    have hpre' : ∀ x ∈ pre, x.IsDir = false → startsWith x.Name fileID = false := by
      intro x hx hxd
      rcases hpre x hx with h | h
      · rw [hxd] at h; exact Bool.noConfusion h
      · exact (startsWith_false_iff _ _).mpr h
    have hfind : findFile fileID dir = some (filepathJoin uploadDir e.Name) := by
      rw [hdir]; exact findFile_first fileID pre post e hfile hstart' hpre'
    refine ⟨hfind, handleDownload_found faults dir r fileID _ hm hp hid hfault hfind, ?_⟩
    intro hvalid
    exact handleDownload_selected dir pre post e r fileID hm hp hid hdir hfile hstart' hpre' hvalid
  · constructor
    · intro h e he hfile hstart
      have hnone : findFile fileID dir = none := by
        cases hfind : findFile fileID dir with
        | none => rfl
        | some p =>
          obtain ⟨res, hres, hopened⟩ :=
            handleDownload_found faults dir r fileID p hm hp hid hfault hfind
          rw [h] at hres
          injection hres with hres
          rw [← hres] at hopened
          simp at hopened
      have := (findFile_none_iff fileID dir).mp hnone e he hfile
      exact (startsWith_false_iff _ _).mp this hstart
    · intro h
      apply handleDownload_notFound faults dir r fileID hm hp hid hfault
      apply (findFile_none_iff fileID dir).mpr
      intro e he hfile
      exact (startsWith_false_iff _ _).mpr (h e he hfile)

/-- C10: the only path `handleDownload` ever opens is `uploadDir` joined with
the name of a non-directory entry of the listing (the direct child
`uploads/name` for a valid entry name), whatever the requested `fileID`; and
since entry names contain no `/`, a `fileID` that contains `/` matches nothing
and yields NotFound. -/
theorem handleDownload_confined (faults : DownloadFaults) (dir : Dir) (r : Request) :
    (∀ res p, handleDownload faults dir r = some res → res.opened = some p →
        ∃ e ∈ dir, e.IsDir = false ∧ p = filepathJoin uploadDir e.Name ∧
          (validName e.Name → p = str "uploads/" ++ e.Name)) ∧
    (∀ fileID, r.Method = str "GET" → r.URLPath = str "/files/" ++ fileID →
        faults.readDirErr = false → slash ∈ fileID → (∀ e ∈ dir, slash ∉ e.Name) →
        handleDownload faults dir r = some ⟨httpError (str "File not found") 404, none⟩) := by
  constructor
  · intro res p hres hopened
    have hfind := handleDownload_opened faults dir r res p hres hopened
    obtain ⟨pre, e, post, hdir, hfile, _, _, hp⟩ := findFile_some _ dir p hfind
    refine ⟨e, by rw [hdir]; simp, hfile, hp, ?_⟩
    intro hvalid
    rw [hp, filepathJoin_uploadDir e.Name hvalid]
  · intro fileID hm hp hfault hslash hnames
    have hid : fileID ≠ [] := fun e => by rw [e] at hslash; simp at hslash
    apply handleDownload_notFound faults dir r fileID hm hp hid hfault
    apply (findFile_none_iff fileID dir).mpr
    intro e he _
    apply (startsWith_false_iff _ _).mpr
    rintro ⟨t, ht⟩
    apply hnames e he
    rw [← ht]
    exact List.mem_append_left _ hslash

/-- C3, as the claim states it, fails: after one upload, which issued the
identifier `000000000000`, a download of the identifier `0`, which was never
issued, answers 200 with the stored bytes. -/
theorem download_unissued_counterexample :
    generateFileID (some zeros16) 0 = str "000000000000" ∧
    (handleUpload (some zeros16) 0 noUploadFaults []
      (uploadRequest 300 (str "a.txt") [1, 2, 3])).2
      = [⟨str "000000000000_a.txt", false, [1, 2, 3]⟩] ∧
    str "0" ≠ str "000000000000" ∧
    handleDownload noDownloadFaults
      (handleUpload (some zeros16) 0 noUploadFaults []
        (uploadRequest 300 (str "a.txt") [1, 2, 3])).2
      (downloadRequest (str "0"))
      = some ⟨downloadResponse (str "0000000000_a.txt") [1, 2, 3],
              some (str "uploads/000000000000_a.txt")⟩ := by
  decide

/-- C3 amended: for every listing and every non-empty requested identifier
that is not a prefix of the name of any stored file, `handleDownload` produces
the 404 `File not found` outcome, opens no file and streams no bytes. -/
theorem handleDownload_not_stored (faults : DownloadFaults) (dir : Dir) (r : Request)
    (fileID : GoString)
    (hm : r.Method = str "GET") (hp : r.URLPath = str "/files/" ++ fileID)
    (hid : fileID ≠ []) (hfault : faults.readDirErr = false)
    (hnone : ∀ e ∈ dir, e.IsDir = false → ¬ fileID <+: e.Name) :
    handleDownload faults dir r = some ⟨httpError (str "File not found") 404, none⟩ ∧
    (httpError (str "File not found") 404).status = 404 ∧
    (httpError (str "File not found") 404).body = str "File not found\n" := by
  refine ⟨?_, rfl, ?_⟩
  · apply handleDownload_notFound faults dir r fileID hm hp hid hfault
    apply (findFile_none_iff fileID dir).mpr
    intro e he hfile
    exact (startsWith_false_iff _ _).mpr (hnone e he hfile)
  · decide

/-- C9: the claim that every matched entry name longer than `len(fileID) + 1`
satisfies `name == fileID + "_" + originalName` is what the comments of lines
219 and 222 say (`Remove "fileID_" prefix`), and the code misses it: the slice
of line 222 never checks that the byte after `fileID` is the separator.  With
the single stored file `000000000000_a.txt`, the request `/files/0000` matches
that entry, the slice removes `00000`, and the disposition file name sent is
`0000000_a.txt`: neither the original file name `a.txt`, nor a string for
which `name == fileID + "_" + originalName` holds. -/
theorem recovered_name_partial_id :
    findFile (str "0000") [⟨str "000000000000_a.txt", false, [1, 2, 3]⟩]
      = some (str "uploads/000000000000_a.txt") ∧
    (str "000000000000_a.txt").length > (str "0000").length + 1 ∧
    handleDownload noDownloadFaults [⟨str "000000000000_a.txt", false, [1, 2, 3]⟩]
      (downloadRequest (str "0000"))
      = some ⟨downloadResponse (str "0000000_a.txt") [1, 2, 3],
              some (str "uploads/000000000000_a.txt")⟩ ∧
    recoverFilename (str "0000")
        (filepathBase (filepathJoin uploadDir (str "000000000000_a.txt")))
      = str "0000000_a.txt" ∧
    str "000000000000_a.txt" ≠ str "0000" ++ str "_" ++ str "0000000_a.txt" ∧
    str "0000000_a.txt" ≠ str "a.txt" := by
  decide

theorem handleDownload_first_match_witness :
    findFile (str "abc")
        [⟨str "abc", true, []⟩, ⟨str "abcd_x.txt", false, [1]⟩, ⟨str "abc_y.txt", false, [2]⟩]
      = some (filepathJoin uploadDir (str "abcd_x.txt")) ∧
    (∃ res, handleDownload noDownloadFaults
        [⟨str "abc", true, []⟩, ⟨str "abcd_x.txt", false, [1]⟩, ⟨str "abc_y.txt", false, [2]⟩]
        (downloadRequest (str "abc")) = some res ∧
      res.opened = some (filepathJoin uploadDir (str "abcd_x.txt"))) ∧
    (validName (str "abcd_x.txt") →
      handleDownload noDownloadFaults
        [⟨str "abc", true, []⟩, ⟨str "abcd_x.txt", false, [1]⟩, ⟨str "abc_y.txt", false, [2]⟩]
        (downloadRequest (str "abc"))
        = some ⟨downloadResponse (recoverFilename (str "abc") (str "abcd_x.txt")) [1],
                some (str "uploads/" ++ str "abcd_x.txt")⟩) :=
  (handleDownload_first_match noDownloadFaults
    [⟨str "abc", true, []⟩, ⟨str "abcd_x.txt", false, [1]⟩, ⟨str "abc_y.txt", false, [2]⟩]
    (downloadRequest (str "abc")) (str "abc") (by decide) (by decide) (by decide) (by decide)).1
    [⟨str "abc", true, []⟩] ⟨str "abcd_x.txt", false, [1]⟩ [⟨str "abc_y.txt", false, [2]⟩]
    rfl rfl (by decide) (by decide)

theorem handleDownload_confined_witness :
    handleDownload noDownloadFaults [⟨str "abc_x.txt", false, [1]⟩]
      (downloadRequest (str "../abc"))
      = some ⟨httpError (str "File not found") 404, none⟩ :=
  (handleDownload_confined noDownloadFaults [⟨str "abc_x.txt", false, [1]⟩]
    (downloadRequest (str "../abc"))).2 (str "../abc") (by decide) (by decide) (by decide)
    (by decide) (by decide)

theorem handleDownload_not_stored_witness :
    handleDownload noDownloadFaults [⟨str "000000000000_a.txt", false, [1, 2, 3]⟩]
      (downloadRequest (str "doesnotexist"))
      = some ⟨httpError (str "File not found") 404, none⟩ ∧
    (httpError (str "File not found") 404).status = 404 ∧
    (httpError (str "File not found") 404).body = str "File not found\n" :=
  handleDownload_not_stored noDownloadFaults [⟨str "000000000000_a.txt", false, [1, 2, 3]⟩]
    (downloadRequest (str "doesnotexist")) (str "doesnotexist")
    (by decide) (by decide) (by decide) (by decide) (by decide)

/-! ## Upload: claims -/

/-- C8: for every store state and every request, if `handleUpload` rejects the
request before the copy step (the method is not POST, the request body exceeds
the 100 MiB ceiling or is not a multipart form so that form parsing fails, or
the form carries no `file` part) then the response is an error status, 405 for
the method and 400 otherwise, and the stored entries and their contents after
the call are those before the call, so every later download answers as it did
before. -/
theorem handleUpload_rejected_unchanged (rnd : Option RandBuf) (now : Int)
    (faults : UploadFaults) (dir : Dir) (r : Request)
    (h : r.Method ≠ str "POST" ∨ r.bodyLength > maxFileSize ∨ r.files = none ∨
      ∃ files, r.files = some files ∧ formFile files (str "file") = none) :
    ((handleUpload rnd now faults dir r).1.status = 405 ∨
      (handleUpload rnd now faults dir r).1.status = 400) ∧
    (handleUpload rnd now faults dir r).1.status
      = (if r.Method ≠ str "POST" then 405 else 400) ∧
    (handleUpload rnd now faults dir r).2 = dir ∧
    (∀ (dfaults : DownloadFaults) (r' : Request),
      handleDownload dfaults (handleUpload rnd now faults dir r).2 r'
        = handleDownload dfaults dir r') := by
  have key : (handleUpload rnd now faults dir r).1.status
        = (if r.Method ≠ str "POST" then 405 else 400) ∧
      (handleUpload rnd now faults dir r).2 = dir := by
    unfold handleUpload
    by_cases hm : r.Method ≠ str "POST"
    · rw [if_pos hm, if_pos hm]
      exact ⟨rfl, rfl⟩
    · rw [if_neg hm, if_neg hm]
      rcases h with h | h | h | ⟨files, hf, hnone⟩
      · exact absurd h hm
      · have hparse : parseMultipartForm r = none := by
          unfold parseMultipartForm
          rw [if_pos h]
        simp [hparse, httpError]
      · have hparse : parseMultipartForm r = none := by
          unfold parseMultipartForm
          split
          · rfl
          · exact h
        simp [hparse, httpError]
      · cases hparse : parseMultipartForm r with
        | none => exact ⟨rfl, rfl⟩
        | some files' =>
          have hfiles : files' = files := by
            unfold parseMultipartForm at hparse
            split at hparse
            · exact Option.noConfusion hparse
            · rw [hf] at hparse
              injection hparse with hparse
              exact hparse.symm
          simp [hfiles, hnone, httpError]
  refine ⟨?_, key.1, key.2, ?_⟩
  · rw [key.1]
    split
    · exact Or.inl rfl
    · exact Or.inr rfl
  · intro dfaults r'
    rw [key.2]

theorem handleUpload_rejected_unchanged_witness :
    ((handleUpload (some zeros16) 0 noUploadFaults [⟨str "ffffffffffff_old.bin", false, [9]⟩]
        (uploadRequest (maxFileSize + 1) (str "a.txt") [1, 2, 3])).1.status = 405 ∨
      (handleUpload (some zeros16) 0 noUploadFaults [⟨str "ffffffffffff_old.bin", false, [9]⟩]
        (uploadRequest (maxFileSize + 1) (str "a.txt") [1, 2, 3])).1.status = 400) ∧
    (handleUpload (some zeros16) 0 noUploadFaults [⟨str "ffffffffffff_old.bin", false, [9]⟩]
        (uploadRequest (maxFileSize + 1) (str "a.txt") [1, 2, 3])).1.status
      = (if (uploadRequest (maxFileSize + 1) (str "a.txt") [1, 2, 3]).Method ≠ str "POST"
          then 405 else 400) ∧
    (handleUpload (some zeros16) 0 noUploadFaults [⟨str "ffffffffffff_old.bin", false, [9]⟩]
        (uploadRequest (maxFileSize + 1) (str "a.txt") [1, 2, 3])).2
      = [⟨str "ffffffffffff_old.bin", false, [9]⟩] ∧
    (∀ (dfaults : DownloadFaults) (r' : Request),
      handleDownload dfaults
        (handleUpload (some zeros16) 0 noUploadFaults [⟨str "ffffffffffff_old.bin", false, [9]⟩]
          (uploadRequest (maxFileSize + 1) (str "a.txt") [1, 2, 3])).2 r'
        = handleDownload dfaults [⟨str "ffffffffffff_old.bin", false, [9]⟩] r') :=
  handleUpload_rejected_unchanged (some zeros16) 0 noUploadFaults
    [⟨str "ffffffffffff_old.bin", false, [9]⟩]
    (uploadRequest (maxFileSize + 1) (str "a.txt") [1, 2, 3])
    (Or.inr (Or.inl (by decide)))

/-- C1, as the claim states it, fails.  For the non-empty file name `/`, which
`filepath.Base` leaves unchanged, `filepath.Join` cleans the composite name
`000000000000_/` to the path `uploads/000000000000_`: the 3 bytes are stored
under `000000000000_` and the download returns the disposition file name
`000000000000_`, not `/`.  And a 3-byte content in a request whose body is one
byte over the ceiling is rejected with 400 and not stored, although
`3 <= maxFileSize`. -/
theorem upload_roundtrip_counterexample :
    ((handleUpload (some zeros16) 0 noUploadFaults []
        (uploadRequest 300 (str "/") [1, 2, 3])).1.status = 200 ∧
      compositeName (generateFileID (some zeros16) 0) (str "/") = str "000000000000_/" ∧
      (handleUpload (some zeros16) 0 noUploadFaults []
        (uploadRequest 300 (str "/") [1, 2, 3])).2
        = [⟨str "000000000000_", false, [1, 2, 3]⟩] ∧
      handleDownload noDownloadFaults
        (handleUpload (some zeros16) 0 noUploadFaults []
          (uploadRequest 300 (str "/") [1, 2, 3])).2
        (downloadRequest (str "000000000000"))
        = some ⟨downloadResponse (str "000000000000_") [1, 2, 3],
                some (str "uploads/000000000000_")⟩ ∧
      str "000000000000_" ≠ str "/") ∧
    ([1, 2, 3].length ≤ maxFileSize ∧
      handleUpload (some zeros16) 0 noUploadFaults []
        (uploadRequest (maxFileSize + 1) (str "a.txt") [1, 2, 3])
        = (httpError (str "File too large or invalid form") 400, [])) := by
  decide

/-- C1 amended: for every store state, every generated identifier that no
stored entry name already has as a prefix, every non-empty original file name
without the path separator `/`, and every content of `S` bytes carried as the
`file` part of a POST whose body is within the `maxFileSize` ceiling, when no
storage fault occurs `handleUpload` stores the content under
`id + "_" + filename`, leaves the other entries as they were and reports
`size == S`; an immediately following `handleDownload` with `fileID = id`
finds that entry and returns exactly the same bytes, Content-Length `S`, and a
disposition file name equal to the original file name (the 0-byte content
included). -/
theorem upload_download_roundtrip (rnd : Option RandBuf) (now : Int) (dir : Dir)
    (r : Request) (files : List (GoString × FileHeader)) (header : FileHeader) (r' : Request)
    (hm : r.Method = str "POST") (hb : r.bodyLength ≤ maxFileSize)
    (hf : r.files = some files) (hh : formFile files (str "file") = some header)
    (hne : header.Filename ≠ []) (hslash : slash ∉ header.Filename)
    (hfresh : ∀ e ∈ dir, ¬ generateFileID rnd now <+: e.Name)
    (hm' : r'.Method = str "GET")
    (hp' : r'.URLPath = str "/files/" ++ generateFileID rnd now) :
    (handleUpload rnd now noUploadFaults dir r).1 =
      { status := 200
        header := [(str "Content-Type", str "application/json")]
        body := uploadJSON (generateFileID rnd now) header.Filename header.content.length
          (str "http://" ++ getHost r ++ str "/files/" ++ generateFileID rnd now) } ∧
    (∃ pre post, dir = pre ++ post ∧
      (handleUpload rnd now noUploadFaults dir r).2 =
        pre ++ ⟨compositeName (generateFileID rnd now) header.Filename, false,
                 header.content⟩ :: post) ∧
    handleDownload noDownloadFaults (handleUpload rnd now noUploadFaults dir r).2 r' =
      some ⟨downloadResponse header.Filename header.content,
            some (str "uploads/" ++ compositeName (generateFileID rnd now) header.Filename)⟩ ∧
    (downloadResponse header.Filename header.content).body = header.content ∧
    (downloadResponse header.Filename header.content).header.lookup (str "Content-Length")
      = some (formatInt header.content.length) := by
  have hfresh' : ∀ e ∈ dir, startsWith e.Name (generateFileID rnd now) = false :=
    fun e he => (startsWith_false_iff _ _).mpr (hfresh e he)
  obtain ⟨pre, post, hsplit, hup⟩ :=
    handleUpload_stored rnd now dir r files header hm hb hf hh hslash hfresh'
  have hup' : handleUpload rnd now noUploadFaults dir r = _ := hup
  have hpre : ∀ x ∈ pre, x.IsDir = false → startsWith x.Name (generateFileID rnd now) = false :=
    fun x hx _ => hfresh' x (by rw [hsplit]; exact List.mem_append_left _ hx)
  have hdown := handleDownload_selected
    (pre ++ ⟨compositeName (generateFileID rnd now) header.Filename, false,
      header.content⟩ :: post) pre post
    ⟨compositeName (generateFileID rnd now) header.Filename, false, header.content⟩ r'
    (generateFileID rnd now) hm' hp' (generateFileID_ne_nil rnd now) rfl rfl
    (compositeName_startsWith _ _) hpre (compositeName_valid rnd now header.Filename hslash)
  rw [recoverFilename_composite _ _ hne] at hdown
  rw [hup']
  refine ⟨rfl, ⟨pre, post, hsplit, rfl⟩, hdown, rfl, ?_⟩
  have h1 : (str "Content-Length" == str "Content-Disposition") = false := by decide
  have h2 : (str "Content-Length" == str "Content-Type") = false := by decide
  have h3 : (str "Content-Length" == str "Content-Length") = true := by decide
  simp only [downloadResponse, List.lookup, h1, h2, h3]

theorem upload_download_roundtrip_witness :
    (handleUpload (some zeros16) 0 noUploadFaults [⟨str "ffffffffffff_old.bin", false, [9]⟩]
        (uploadRequest 300 (str "a.txt") [])).1 =
      { status := 200
        header := [(str "Content-Type", str "application/json")]
        body := uploadJSON (generateFileID (some zeros16) 0)
          (⟨str "a.txt", []⟩ : FileHeader).Filename
          (⟨str "a.txt", []⟩ : FileHeader).content.length
          (str "http://" ++ getHost (uploadRequest 300 (str "a.txt") []) ++ str "/files/"
            ++ generateFileID (some zeros16) 0) } ∧
    (∃ pre post, [(⟨str "ffffffffffff_old.bin", false, [9]⟩ : DirEntry)] = pre ++ post ∧
      (handleUpload (some zeros16) 0 noUploadFaults [⟨str "ffffffffffff_old.bin", false, [9]⟩]
        (uploadRequest 300 (str "a.txt") [])).2 =
        pre ++ ⟨compositeName (generateFileID (some zeros16) 0)
                  (⟨str "a.txt", []⟩ : FileHeader).Filename, false,
                 (⟨str "a.txt", []⟩ : FileHeader).content⟩ :: post) ∧
    handleDownload noDownloadFaults
      (handleUpload (some zeros16) 0 noUploadFaults [⟨str "ffffffffffff_old.bin", false, [9]⟩]
        (uploadRequest 300 (str "a.txt") [])).2
      (downloadRequest (str "000000000000")) =
      some ⟨downloadResponse (⟨str "a.txt", []⟩ : FileHeader).Filename
              (⟨str "a.txt", []⟩ : FileHeader).content,
            some (str "uploads/" ++ compositeName (generateFileID (some zeros16) 0)
              (⟨str "a.txt", []⟩ : FileHeader).Filename)⟩ ∧
    (downloadResponse (⟨str "a.txt", []⟩ : FileHeader).Filename
        (⟨str "a.txt", []⟩ : FileHeader).content).body
      = (⟨str "a.txt", []⟩ : FileHeader).content ∧
    (downloadResponse (⟨str "a.txt", []⟩ : FileHeader).Filename
        (⟨str "a.txt", []⟩ : FileHeader).content).header.lookup (str "Content-Length")
      = some (formatInt (⟨str "a.txt", []⟩ : FileHeader).content.length) :=
  upload_download_roundtrip (some zeros16) 0 [⟨str "ffffffffffff_old.bin", false, [9]⟩]
    (uploadRequest 300 (str "a.txt") []) [(str "file", ⟨str "a.txt", []⟩)] ⟨str "a.txt", []⟩
    (downloadRequest (str "000000000000"))
    (by decide) (by decide) rfl (by decide) (by decide) (by decide) (by decide) (by decide)
    (by decide)

/-! ## Scenarios of the specification -/

/-- Upload of a 10-byte payload named `a.txt`: the response carries a
12-character hex identifier, the file name and `size == 10`; the download of
that identifier returns the 10 bytes with disposition file name `a.txt`. -/
theorem scenario_ten_bytes :
    (generateFileID (some zeros16) 0).length = 12 ∧
    (handleUpload (some zeros16) 0 noUploadFaults []
        (uploadRequest 400 (str "a.txt") [1, 2, 3, 4, 5, 6, 7, 8, 9, 10])).1.body
      = uploadJSON (str "000000000000") (str "a.txt") 10
          (str "http://example.org/files/000000000000") ∧
    handleDownload noDownloadFaults
        (handleUpload (some zeros16) 0 noUploadFaults []
          (uploadRequest 400 (str "a.txt") [1, 2, 3, 4, 5, 6, 7, 8, 9, 10])).2
        (downloadRequest (str "000000000000"))
      = some ⟨downloadResponse (str "a.txt") [1, 2, 3, 4, 5, 6, 7, 8, 9, 10],
              some (str "uploads/000000000000_a.txt")⟩ := by
  decide

/-- Download of `doesnotexist` from a store that holds one upload: NotFound,
no file opened. -/
theorem scenario_does_not_exist :
    handleDownload noDownloadFaults
        (handleUpload (some zeros16) 0 noUploadFaults []
          (uploadRequest 400 (str "a.txt") [1, 2, 3])).2
        (downloadRequest (str "doesnotexist"))
      = some ⟨httpError (str "File not found") 404, none⟩ := by
  decide

/-- A failing copy leaves the bytes written so far in the store and answers
500. -/
theorem scenario_partial_copy :
    handleUpload (some zeros16) 0 ⟨false, some 2⟩ []
        (uploadRequest 400 (str "a.txt") [1, 2, 3])
      = (httpError (str "Failed to save file") 500,
         [⟨str "000000000000_a.txt", false, [1, 2]⟩]) := by
  decide

end NgrokCurl
